import Mathlib

/-!
Verification of the per-user encrypted credential vault of this repository:
the `CredentialManager` cipher/validator module and the `CredentialRepository`
database module, shallowly embedded as pure Lean functions over an explicit
database state.

Modelling conventions:
* A credential payload (a Python dict of string keys to string values) is an
  association list `Payload`.
* The Fernet authenticated cipher is an external library; it is modelled
  symbolically: a ciphertext is either a well-formed token carrying the key it
  was produced with and the serialized payload, or an arbitrary corrupt blob.
  Decryption succeeds exactly when the token's key matches the manager's key,
  which is Fernet's authenticated-encryption contract (the random nonce that
  makes real tokens non-deterministic is irrelevant to every claim proved
  here, which only depend on decryptability and payload recovery).
* The `user_credentials` table is a list of rows plus a fresh-id counter; SQL
  statements become list filters, maps and appends.  `scalar_one_or_none`
  raising `MultipleResultsFound` on a multi-row result, and UPDATE/DELETE
  `rowcount` counting the rows matched by the WHERE clause, are modelled
  exactly.  Timestamps are abstract `Nat` instants supplied by the caller
  (the repository calls `datetime.utcnow()` at each write).
* A Python `raise` escaping an operation is an `Except.error`; since the
  repository commits before any later statement can raise, each stateful
  operation returns the resulting database alongside its `Except` result.
-/

/-- Errors raised by the vault modules: missing key at startup
(`ValueError` in `CredentialManager.__init__`, the spec's
`ConfigurationError`), payload validation failure (`ValueError` in
`add_credential`, the spec's `ValidationError`), decryption failure
(`ValueError` in `decrypt_credential`, the spec's `DecryptionError`) and
SQLAlchemy's `MultipleResultsFound` from `scalar_one_or_none`. -/
inductive VaultError where
  | configurationError
  | validationError (service : String)
  | decryptionError
  | multipleResultsFound
deriving DecidableEq, Repr

/-- A credential payload: Python dict of string keys to string values. -/
abbrev Payload := List (String × String)

/-- Symbolic model of a Fernet token stored in the `encrypted_credentials`
text column: a valid token records the encrypting key and the payload it
serializes; `corrupt` stands for any blob that fails authentication. -/
inductive Ciphertext where
  | token (key : String) (data : Payload)
  | corrupt (blob : String)
deriving DecidableEq, Repr

/-- `CredentialManager`: holds the Fernet cipher built from the
`CREDENTIAL_ENCRYPTION_KEY` environment value (source:
`bot/utils/credential_manager.py`). -/
structure CredentialManager where
  key : String
deriving DecidableEq, Repr

/-- `CredentialManager.__init__`: reads the key from the environment; a
missing (or empty, since `if not key` is a falsiness test) value raises. -/
def CredentialManager.init (envKey : Option String) :
    Except VaultError CredentialManager :=
  match envKey with
  | none => .error .configurationError
  | some k => if k = "" then .error .configurationError else .ok ⟨k⟩

/-- `CredentialManager.encrypt_credential`: JSON-serializes the payload and
encrypts it with the held key (both steps symbolic, see module docstring). -/
def encrypt_credential (cm : CredentialManager) (credential_data : Payload) :
    Ciphertext :=
  .token cm.key credential_data

/-- `CredentialManager.decrypt_credential`: authenticates and decrypts,
wrapping any failure in a `ValueError`. -/
def decrypt_credential (cm : CredentialManager) (encrypted_data : Ciphertext) :
    Except VaultError Payload :=
  match encrypted_data with
  | .token k data => if k = cm.key then .ok data else .error .decryptionError
  | .corrupt _ => .error .decryptionError

/-- The `formats` table of `validate_credential_format`: declared required
payload keys per service. -/
def formats : List (String × List String) :=
  [("osha_api", ["api_key"]),
   ("dol_efast", ["username", "password"]),
   ("pacer", ["username", "password"]),
   ("fec_api", ["api_key"]),
   ("opencorporates", ["api_key"]),
   ("newsapi", ["api_key"]),
   ("propublica", ["api_key"]),
   ("sam_gov", ["api_key"])]

/-- `CredentialManager.validate_credential_format`: unknown service (or a
falsy, i.e. empty, expected-key list) is accepted; otherwise every expected
key must be present in the payload (extra keys are not checked). -/
def validate_credential_format (service_name : String)
    (credential_data : Payload) : Bool :=
  match formats.lookup service_name with
  | none => true
  | some expected_keys =>
      if expected_keys.isEmpty then true
      else expected_keys.all fun k => credential_data.any fun kv => kv.fst == k

/-- One row of the `user_credentials` table (source: `database/models.py`,
class `UserCredential`).  `created_at` is filled by the server default at
insert; `updated_at` and `last_used` are null until explicitly set (the
column's `server_onupdate` marker emits no SQL by itself). -/
structure UserCredential where
  id : Nat
  user_id : Int
  service_name : String
  credential_type : String
  encrypted_credentials : Ciphertext
  is_active : Bool
  created_at : Nat
  updated_at : Option Nat
  last_used : Option Nat
deriving DecidableEq, Repr

/-- The `user_credentials` table: its rows plus the next auto-increment id. -/
structure DB where
  rows : List UserCredential
  nextId : Nat
deriving DecidableEq, Repr

/-- The WHERE clause `user_id == u AND service_name == s` shared by every
statement of the repository. -/
def matchesPair (u : Int) (s : String) (r : UserCredential) : Bool :=
  decide (r.user_id = u) && decide (r.service_name = s)

/-- Rows matched by `user_id == u AND service_name == s`. -/
def rowsFor (db : DB) (u : Int) (s : String) : List UserCredential :=
  db.rows.filter fun r => matchesPair u s r

/-- Rows matched by `user_id == u AND service_name == s AND is_active`. -/
def activeRowsFor (db : DB) (u : Int) (s : String) : List UserCredential :=
  db.rows.filter fun r => matchesPair u s r && r.is_active

/-- `CredentialRepository.get_credential`: SELECT with the active filter,
finished by `scalar_one_or_none`, which yields the unique row, `None`, or
raises `MultipleResultsFound` when several rows match. -/
def get_credential (db : DB) (user_id : Int) (service_name : String) :
    Except VaultError (Option UserCredential) :=
  match activeRowsFor db user_id service_name with
  | [] => .ok none
  | [r] => .ok (some r)
  | _ :: _ :: _ => .error .multipleResultsFound

/-- `CredentialRepository.add_credential`: validate, encrypt, then either
UPDATE every row of the pair (the WHERE clause has no `is_active` filter)
and re-fetch, or INSERT a fresh active row.  The UPDATE is committed before
the re-fetch, so the state change survives even when the re-fetch raises. -/
def add_credential (cm : CredentialManager) (db : DB) (now : Nat)
    (user_id : Int) (service_name : String) (credential_type : String)
    (credential_data : Payload) :
    Except VaultError (Option UserCredential) × DB :=
  if validate_credential_format service_name credential_data = true then
    let encrypted := encrypt_credential cm credential_data
    match get_credential db user_id service_name with
    | .error e => (.error e, db)
    | .ok (some _) =>
        let db1 : DB :=
          { db with
            rows := db.rows.map fun r =>
              if matchesPair user_id service_name r then
                { r with
                  credential_type := credential_type,
                  encrypted_credentials := encrypted,
                  is_active := true,
                  updated_at := some now }
              else r }
        (get_credential db1 user_id service_name, db1)
    | .ok none =>
        let credential : UserCredential :=
          { id := db.nextId,
            user_id := user_id,
            service_name := service_name,
            credential_type := credential_type,
            encrypted_credentials := encrypted,
            is_active := true,
            created_at := now,
            updated_at := none,
            last_used := none }
        (.ok (some credential),
         { rows := db.rows ++ [credential], nextId := db.nextId + 1 })
  else
    (.error (.validationError service_name), db)

/-- `CredentialRepository.deactivate_credential`: UPDATE setting
`is_active = false` and `updated_at` on every row of the pair (no
`is_active` filter in the WHERE clause); returns `rowcount > 0`, the number
of rows matched. -/
def deactivate_credential (db : DB) (now : Nat) (user_id : Int)
    (service_name : String) : Bool × DB :=
  (!(rowsFor db user_id service_name).isEmpty,
   { db with
     rows := db.rows.map fun r =>
       if matchesPair user_id service_name r then
         { r with is_active := false, updated_at := some now }
       else r })

/-- `CredentialRepository.remove_credential`: DELETE of every row of the
pair; returns `rowcount > 0`. -/
def remove_credential (db : DB) (user_id : Int) (service_name : String) :
    Bool × DB :=
  (!(rowsFor db user_id service_name).isEmpty,
   { db with
     rows := db.rows.filter fun r => !matchesPair user_id service_name r })

/-- `CredentialRepository.get_credential_decrypted`: fetch the active row;
absent means `None`; a decryption `ValueError` deactivates the row and
yields `None`; success returns the plaintext payload with no write. -/
def get_credential_decrypted (cm : CredentialManager) (db : DB) (now : Nat)
    (user_id : Int) (service_name : String) :
    Except VaultError (Option Payload) × DB :=
  match get_credential db user_id service_name with
  | .error e => (.error e, db)
  | .ok none => (.ok none, db)
  | .ok (some credential) =>
      match decrypt_credential cm credential.encrypted_credentials with
      | .ok data => (.ok (some data), db)
      | .error _ =>
          (.ok none, (deactivate_credential db now user_id service_name).2)

/-- Insert a row into a list kept in descending `created_at` order
(model of the SQL `ORDER BY created_at DESC`). -/
def insertDesc (r : UserCredential) : List UserCredential → List UserCredential
  | [] => [r]
  | x :: xs =>
      if r.created_at ≤ x.created_at then x :: insertDesc r xs
      else r :: x :: xs

/-- Sort rows by descending `created_at`. -/
def sortDesc (l : List UserCredential) : List UserCredential :=
  l.foldr insertDesc []

/-- The list is in descending `created_at` order. -/
def SortedDesc : List UserCredential → Prop
  | [] => True
  | [_] => True
  | a :: b :: t => b.created_at ≤ a.created_at ∧ SortedDesc (b :: t)

/-- `CredentialRepository.get_all_credentials`: SELECT by user, optional
active filter, `ORDER BY created_at DESC`. -/
def get_all_credentials (db : DB) (user_id : Int) (active_only : Bool) :
    List UserCredential :=
  sortDesc (db.rows.filter fun r =>
    decide (r.user_id = user_id) && (!active_only || r.is_active))

/-- `CredentialRepository.update_last_used`: UPDATE setting only
`last_used` on every row of the pair; its result is discarded. -/
def update_last_used (db : DB) (now : Nat) (user_id : Int)
    (service_name : String) : DB :=
  { db with
    rows := db.rows.map fun r =>
      if matchesPair user_id service_name r then
        { r with last_used := some now }
      else r }

/-- `CredentialRepository.get_services_with_credentials`: service names of
the user's active credentials. -/
def get_services_with_credentials (db : DB) (user_id : Int) : List String :=
  (get_all_credentials db user_id true).map fun r => r.service_name

/-! ### Concrete fixtures used by witnesses and counterexamples -/

/-- A manager initialized from a configured key. -/
def cm0 : CredentialManager := ⟨"master-key"⟩

/-- The empty `user_credentials` table. -/
def dbEmpty : DB := { rows := [], nextId := 0 }

/-- One stored active OSHA row for user 1. -/
def rowActive : UserCredential :=
  { id := 0, user_id := 1, service_name := "osha_api",
    credential_type := "api_key",
    encrypted_credentials := .token "master-key" [("api_key", "abc")],
    is_active := true, created_at := 0, updated_at := none, last_used := none }

/-- A table holding exactly `rowActive`. -/
def dbOne : DB := { rows := [rowActive], nextId := 1 }

/-- One stored inactive (soft-deleted) OSHA row for user 1. -/
def rowInactive : UserCredential :=
  { id := 0, user_id := 1, service_name := "osha_api",
    credential_type := "api_key",
    encrypted_credentials := .token "master-key" [("api_key", "old")],
    is_active := false, created_at := 0, updated_at := some 1,
    last_used := none }

/-- A table holding exactly `rowInactive`. -/
def dbInactive : DB := { rows := [rowInactive], nextId := 1 }

/-- One active OSHA row whose stored blob fails authentication. -/
def rowCorrupt : UserCredential :=
  { id := 0, user_id := 1, service_name := "osha_api",
    credential_type := "api_key",
    encrypted_credentials := .corrupt "garbage",
    is_active := true, created_at := 0, updated_at := none, last_used := none }

/-- A table holding exactly `rowCorrupt`. -/
def dbCorrupt : DB := { rows := [rowCorrupt], nextId := 1 }

/-- A second active OSHA row for user 1 (duplicate of the pair). -/
def rowDup : UserCredential :=
  { id := 1, user_id := 1, service_name := "osha_api",
    credential_type := "api_key",
    encrypted_credentials := .token "master-key" [("api_key", "def")],
    is_active := true, created_at := 1, updated_at := none, last_used := none }

/-- A table with two active rows for the same (user, service) pair. -/
def dbDup : DB := { rows := [rowActive, rowDup], nextId := 2 }

/-- State after the run add, deactivate, add, add for (1, "osha_api"),
starting from the empty table. -/
def c1Run : DB :=
  let s1 := (add_credential cm0 dbEmpty 1 1 "osha_api" "api_key"
    [("api_key", "p1")]).2
  let s2 := (deactivate_credential s1 2 1 "osha_api").2
  let s3 := (add_credential cm0 s2 3 1 "osha_api" "api_key"
    [("api_key", "p2")]).2
  (add_credential cm0 s3 4 1 "osha_api" "api_key" [("api_key", "p3")]).2

/-- C1: the at-most-one-active invariant is violated by the sequential run
add, deactivate, add, add on the same (user, service) pair: the third add's
UPDATE (whose WHERE clause lacks an `is_active` filter) reactivates the
soft-deleted leftover row alongside the live one, leaving two active
records for the pair. -/
theorem c1_invariant_violation :
    (activeRowsFor c1Run 1 "osha_api").length = 2 ∧
    (activeRowsFor c1Run 1 "osha_api").map
      (fun r => r.encrypted_credentials) =
      [.token "master-key" [("api_key", "p3")],
       .token "master-key" [("api_key", "p3")]] := by
  exact ⟨rfl, rfl⟩

/-- C3: re-adding a credential for a pair whose only record is inactive
does not reactivate that record in place: `get_credential` filters on
`is_active`, so the lookup misses the soft-deleted row and a second row is
inserted, leaving the inactive row untouched. -/
theorem c3_insert_despite_inactive :
    (add_credential cm0 dbInactive 5 1 "osha_api" "api_key"
      [("api_key", "new")]).2.rows.map (fun r => (r.id, r.is_active)) =
      [(0, false), (1, true)] ∧
    (add_credential cm0 dbInactive 5 1 "osha_api" "api_key"
      [("api_key", "new")]).2.rows.length = 2 := by
  exact ⟨rfl, rfl⟩

/-! ### List helper lemmas -/

/-- A filter whose predicate rejects every element yields the empty list. -/
theorem filterNone {α : Type} (q : α → Bool) :
    ∀ l : List α, (∀ a ∈ l, q a = false) → l.filter q = []
  | [], _ => rfl
  | a :: l, h => by
      have ha := h a (List.mem_cons_self a l)
      simp [List.filter_cons, ha,
        filterNone q l fun x hx => h x (List.mem_cons_of_mem a hx)]

/-- Filtering with `p` after keeping only the elements rejected by `p`
yields the empty list. -/
theorem filter_after_filter_not {α : Type} (p : α → Bool) :
    ∀ l : List α, ((l.filter fun a => !p a).filter p) = []
  | [] => rfl
  | a :: l => by
      cases hpa : p a <;>
        simp [List.filter_cons, hpa, filter_after_filter_not p l]

/-- Filtering twice with the same predicate equals filtering once. -/
theorem filter_idem {α : Type} (q : α → Bool) :
    ∀ l : List α, (l.filter q).filter q = l.filter q
  | [] => rfl
  | a :: l => by
      cases hqa : q a <;> simp [List.filter_cons, hqa, filter_idem q l]

/-- Filtering a guarded map (apply `f` exactly on the elements satisfying
`p`) with a predicate `p` that `f` preserves commutes to a map over the
filtered list. -/
theorem filter_map_guard {α : Type} (p : α → Bool) (f : α → α)
    (hp : ∀ a, p (f a) = p a) :
    ∀ l : List α,
      ((l.map fun a => if p a then f a else a).filter p) =
        (l.filter p).map f
  | [] => rfl
  | a :: l => by
      cases hpa : p a <;>
        simp [List.filter_cons, hpa, hp, filter_map_guard p f hp l]

/-- Membership in an ordered insert. -/
theorem mem_insertDesc (x r : UserCredential) :
    ∀ l : List UserCredential, x ∈ insertDesc r l ↔ x = r ∨ x ∈ l
  | [] => by simp [insertDesc]
  | y :: ys => by
      by_cases h : r.created_at ≤ y.created_at
      · simp only [insertDesc, if_pos h, List.mem_cons, mem_insertDesc x r ys]
        tauto
      · simp only [insertDesc, if_neg h, List.mem_cons]

/-- Sorting by descending `created_at` preserves membership. -/
theorem mem_sortDesc (x : UserCredential) :
    ∀ l : List UserCredential, x ∈ sortDesc l ↔ x ∈ l
  | [] => by simp [sortDesc]
  | a :: l => by
      have ih := mem_sortDesc x l
      simp only [sortDesc, List.foldr_cons] at ih ⊢
      rw [mem_insertDesc]
      simp [ih]

/-- Inserting below a dominating head keeps the list sorted. -/
theorem sortedDesc_cons_insert (r : UserCredential) :
    ∀ (z : UserCredential) (l : List UserCredential), SortedDesc (z :: l) →
      r.created_at ≤ z.created_at → SortedDesc (z :: insertDesc r l)
  | _, [], _, hr => ⟨hr, trivial⟩
  | z, y :: ys, hz, hr => by
      by_cases hc : r.created_at ≤ y.created_at
      · simp only [insertDesc]
        rw [if_pos hc]
        exact ⟨hz.1, sortedDesc_cons_insert r y ys hz.2 hc⟩
      · simp only [insertDesc]
        rw [if_neg hc]
        exact ⟨hr, le_of_not_le hc, hz.2⟩

/-- Ordered insert preserves sortedness. -/
theorem sortedDesc_insertDesc (r : UserCredential) :
    ∀ l : List UserCredential, SortedDesc l → SortedDesc (insertDesc r l)
  | [], _ => trivial
  | x :: xs, h => by
      by_cases hc : r.created_at ≤ x.created_at
      · simp only [insertDesc]
        rw [if_pos hc]
        exact sortedDesc_cons_insert r x xs h hc
      · simp only [insertDesc]
        rw [if_neg hc]
        exact ⟨le_of_not_le hc, h⟩

/-- `sortDesc` produces a list in descending `created_at` order. -/
theorem sortedDesc_sortDesc : ∀ l : List UserCredential, SortedDesc (sortDesc l)
  | [] => trivial
  | a :: l => sortedDesc_insertDesc a (sortDesc l) (sortedDesc_sortDesc l)

/-! ### Facts about the repository operations -/

/-- The only error `get_credential` can raise is `MultipleResultsFound`. -/
theorem get_credential_error (db : DB) (u : Int) (s : String) (e : VaultError)
    (h : get_credential db u s = .error e) : e = .multipleResultsFound := by
  cases hl : activeRowsFor db u s with
  | nil => simp [get_credential, hl] at h
  | cons a t =>
      cases t with
      | nil => simp [get_credential, hl] at h
      | cons b t2 =>
          simp [get_credential, hl] at h
          exact h.symm

/-- After `deactivate_credential`, no active row of the pair remains. -/
theorem activeRowsFor_deactivate (db : DB) (now : Nat) (u : Int) (s : String) :
    activeRowsFor (deactivate_credential db now u s).2 u s = [] := by
  simp only [activeRowsFor, deactivate_credential]
  refine filterNone _ _ ?_
  intro x hx
  obtain ⟨a, _, rfl⟩ := List.mem_map.1 hx
  cases hp : matchesPair u s a
  · simp [hp]
  · simp [hp]

/-- C2: when the unique active record of a pair fails authenticated
decryption, `get_credential_decrypted` returns `none` (no error escapes),
deactivates the record, and a subsequent active-only `get_all_credentials`
no longer lists that service. -/
theorem c2_corruption_self_heal (cm : CredentialManager) (db : DB) (now : Nat)
    (u : Int) (s : String) (r : UserCredential)
    (hA : activeRowsFor db u s = [r])
    (hD : decrypt_credential cm r.encrypted_credentials =
      .error .decryptionError) :
    (get_credential_decrypted cm db now u s).1 = .ok none ∧
    activeRowsFor (get_credential_decrypted cm db now u s).2 u s = [] ∧
    ∀ x ∈ get_all_credentials (get_credential_decrypted cm db now u s).2 u true,
      x.service_name ≠ s := by
  have hg : get_credential db u s = .ok (some r) := by
    simp [get_credential, hA]
  have hgcd : get_credential_decrypted cm db now u s =
      (.ok none, (deactivate_credential db now u s).2) := by
    simp [get_credential_decrypted, hg, hD]
  refine ⟨by rw [hgcd], ?_, ?_⟩
  · rw [hgcd]
    exact activeRowsFor_deactivate db now u s
  · intro x hx hxs
    rw [hgcd] at hx
    simp only [get_all_credentials] at hx
    rw [mem_sortDesc] at hx
    rw [List.mem_filter] at hx
    obtain ⟨hmem, hpred⟩ := hx
    simp only [Bool.not_true, Bool.false_or, Bool.and_eq_true,
      decide_eq_true_eq] at hpred
    have hactive : x ∈ activeRowsFor (deactivate_credential db now u s).2 u s := by
      refine List.mem_filter.2 ⟨hmem, ?_⟩
      simp [matchesPair, hpred.1, hpred.2, hxs]
    rw [activeRowsFor_deactivate] at hactive
    simp at hactive

/-- C2 at a concrete corrupted record: the read returns `none` and the pair
has no active row afterwards. -/
theorem c2_corruption_self_heal_witness :
    (get_credential_decrypted cm0 dbCorrupt 9 1 "osha_api").1 = .ok none ∧
    activeRowsFor (get_credential_decrypted cm0 dbCorrupt 9 1 "osha_api").2
      1 "osha_api" = [] := by
  have h := c2_corruption_self_heal cm0 dbCorrupt 9 1 "osha_api" rowCorrupt
    (by rfl) (by rfl)
  exact ⟨h.1, h.2.1⟩

/-- C4 counterexample: with one stored row for the pair, two successive
`deactivate_credential` calls both return `true` (the second UPDATE still
matches the now-inactive row), and the second call does change the state
(it rewrites `updated_at`). -/
theorem c4_deactivate_twice_true :
    (deactivate_credential dbOne 1 1 "osha_api").1 = true ∧
    (deactivate_credential
      (deactivate_credential dbOne 1 1 "osha_api").2 2 1 "osha_api").1 = true ∧
    (deactivate_credential
      (deactivate_credential dbOne 1 1 "osha_api").2 2 1 "osha_api").2 ≠
      (deactivate_credential dbOne 1 1 "osha_api").2 := by
  refine ⟨rfl, rfl, by decide⟩

/-- C4 amended: `remove_credential` is idempotent (true then false, the
second call leaving the state unchanged), while `deactivate_credential`
returns `true` whenever any row for the pair exists, active or not, so its
second call returns `true` again. -/
theorem c4_idempotence (db : DB) (u : Int) (s : String) (n1 n2 : Nat)
    (h : rowsFor db u s ≠ []) :
    (remove_credential db u s).1 = true ∧
    (remove_credential (remove_credential db u s).2 u s).1 = false ∧
    (remove_credential (remove_credential db u s).2 u s).2 =
      (remove_credential db u s).2 ∧
    (deactivate_credential db n1 u s).1 = true ∧
    (deactivate_credential
      (deactivate_credential db n1 u s).2 n2 u s).1 = true := by
  obtain ⟨a, t, hl⟩ : ∃ a t, rowsFor db u s = a :: t := by
    cases hl : rowsFor db u s with
    | nil => exact absurd hl h
    | cons a t => exact ⟨a, t, rfl⟩
  have hrf : rowsFor (remove_credential db u s).2 u s = [] := by
    simp only [rowsFor, remove_credential]
    exact filter_after_filter_not _ db.rows
  refine ⟨?_, ?_, ?_, ?_, ?_⟩
  · show (!(rowsFor db u s).isEmpty) = true
    rw [hl]
    rfl
  · show (!(rowsFor (remove_credential db u s).2 u s).isEmpty) = false
    rw [hrf]
    rfl
  · exact congrArg (fun l => DB.mk l db.nextId)
      (filter_idem (fun r => !matchesPair u s r) db.rows)
  · show (!(rowsFor db u s).isEmpty) = true
    rw [hl]
    rfl
  · have h5 : rowsFor (deactivate_credential db n1 u s).2 u s =
        (rowsFor db u s).map
          (fun r => { r with is_active := false, updated_at := some n1 }) := by
      simp only [rowsFor, deactivate_credential]
      exact filter_map_guard (fun r => matchesPair u s r)
        (fun r => { r with is_active := false, updated_at := some n1 })
        (fun a => rfl) db.rows
    show (!(rowsFor (deactivate_credential db n1 u s).2 u s).isEmpty) = true
    rw [h5, hl]
    rfl

/-- C4 amended at a concrete table with one row for the pair. -/
theorem c4_idempotence_witness :
    rowsFor dbOne 1 "osha_api" ≠ [] ∧
    ((remove_credential dbOne 1 "osha_api").1 = true ∧
     (remove_credential (remove_credential dbOne 1 "osha_api").2
       1 "osha_api").1 = false ∧
     (remove_credential (remove_credential dbOne 1 "osha_api").2
       1 "osha_api").2 = (remove_credential dbOne 1 "osha_api").2 ∧
     (deactivate_credential dbOne 1 1 "osha_api").1 = true ∧
     (deactivate_credential (deactivate_credential dbOne 1 1 "osha_api").2
       2 1 "osha_api").1 = true) :=
  ⟨by decide, c4_idempotence dbOne 1 "osha_api" 1 2 (by decide)⟩

/-- More list plumbing: projecting after a guarded map whose update leaves
the projection unchanged. -/
theorem map_map_guard {α β : Type} (p : α → Bool) (f : α → α) (proj : α → β)
    (h : ∀ a, proj (f a) = proj a) :
    ∀ l : List α,
      ((l.map fun a => if p a then f a else a).map proj) = l.map proj
  | [] => rfl
  | a :: l => by cases hpa : p a <;> simp [hpa, h, map_map_guard p f proj h l]

/-- Projecting after a guarded map, in general. -/
theorem map_map_guard_if {α β : Type} (p : α → Bool) (f : α → α)
    (proj : α → β) :
    ∀ l : List α,
      ((l.map fun a => if p a then f a else a).map proj) =
        l.map fun a => if p a then proj (f a) else proj a
  | [] => rfl
  | a :: l => by cases hpa : p a <;> simp [hpa, map_map_guard_if p f proj l]

/-- Modelled from the spec's words, for comparison with the source
validator: a payload satisfies a declared schema when its key set is
exactly the declared field set — no missing and no unexpected fields
("fails with ValidationError listing missing/unexpected fields"). -/
def specSchemaSatisfied (expected : List String) (p : Payload) : Prop :=
  (∀ k ∈ expected, ∃ kv ∈ p, kv.fst = k) ∧ ∀ kv ∈ p, kv.fst ∈ expected

/-- The source validator rejects exactly when the service has a declared,
non-empty schema and some declared field is missing from the payload. -/
theorem validate_eq_false_iff (s : String) (p : Payload) :
    validate_credential_format s p = false ↔
    ∃ ks, formats.lookup s = some ks ∧ ks ≠ [] ∧
      ∃ k ∈ ks, ∀ kv ∈ p, kv.fst ≠ k := by
  unfold validate_credential_format
  cases hl : formats.lookup s with
  | none => simp
  | some ks =>
      cases ks with
      | nil => simp
      | cons k0 kt =>
          simp only [List.isEmpty_cons, Bool.false_eq_true, if_false,
            Option.some.injEq]
          constructor
          · intro hfalse
            refine ⟨k0 :: kt, rfl, by simp, ?_⟩
            by_contra hcon
            push_neg at hcon
            have hall : ((k0 :: kt).all fun k =>
                p.any fun kv => kv.fst == k) = true := by
              rw [List.all_eq_true]
              intro k hk
              obtain ⟨kv, hkv, he⟩ := hcon k hk
              rw [List.any_eq_true]
              exact ⟨kv, hkv, by simp [he]⟩
            rw [hall] at hfalse
            exact absurd hfalse (by simp)
          · rintro ⟨ks', hks', hne, k, hk, hmiss⟩
            cases hks'
            rw [Bool.eq_false_iff]
            intro hall
            rw [List.all_eq_true] at hall
            have hany := hall k hk
            rw [List.any_eq_true] at hany
            obtain ⟨kv, hkv, hbeq⟩ := hany
            exact hmiss kv hkv (by simpa using hbeq)

/-- C5 counterexample: the payload has the unexpected extra field "extra",
so it does not satisfy the declared osha_api schema in the claim's sense,
yet `add_credential` accepts it (the validator only checks that required
keys are present). -/
theorem c5_extra_field_accepted :
    formats.lookup "osha_api" = some ["api_key"] ∧
    ¬ specSchemaSatisfied ["api_key"] [("api_key", "x"), ("extra", "y")] ∧
    (add_credential cm0 dbEmpty 0 1 "osha_api" "api_key"
      [("api_key", "x"), ("extra", "y")]).1 =
      .ok (some
        { id := 0, user_id := 1, service_name := "osha_api",
          credential_type := "api_key",
          encrypted_credentials :=
            .token "master-key" [("api_key", "x"), ("extra", "y")],
          is_active := true, created_at := 0, updated_at := none,
          last_used := none }) := by
  refine ⟨rfl, ?_, rfl⟩
  intro hsat
  have := hsat.2 ("extra", "y") (by simp)
  simp at this

/-- C5 amended: `add_credential` fails with the validation error (and
leaves the table untouched) exactly when the named service has a declared
non-empty schema and some declared field is missing from the payload;
unexpected extra fields and services absent from the schema table are
accepted. -/
theorem c5_validation_characterization (cm : CredentialManager) (db : DB)
    (now : Nat) (u : Int) (s : String) (t : String) (p : Payload) :
    ((add_credential cm db now u s t p).1 = .error (.validationError s) ∧
     (add_credential cm db now u s t p).2 = db) ↔
    ∃ ks, formats.lookup s = some ks ∧ ks ≠ [] ∧
      ∃ k ∈ ks, ∀ kv ∈ p, kv.fst ≠ k := by
  rw [← validate_eq_false_iff]
  constructor
  · rintro ⟨h1, _⟩
    by_contra hv
    have hv' : validate_credential_format s p = true := by
      revert hv
      cases validate_credential_format s p <;> simp
    cases hg : get_credential db u s with
    | error e =>
        have he := get_credential_error db u s e hg
        subst he
        simp [add_credential, hv', hg] at h1
    | ok o =>
        cases o with
        | none => simp [add_credential, hv', hg] at h1
        | some x =>
            simp only [add_credential, hv', if_true, if_pos] at h1
            rw [hg] at h1
            simp only at h1
            have he := get_credential_error _ u s _ h1
            simp at he
  · intro hv
    constructor
    · simp [add_credential, hv]
    · simp [add_credential, hv]

/-- C6 counterexample: the records returned by `get_all_credentials` carry
the stored ciphertext (the `encrypted_credentials` column), so the result
is not ciphertext-free metadata. -/
theorem c6_ciphertext_in_result :
    (get_all_credentials dbOne 1 true).map
      (fun r => r.encrypted_credentials) =
      [.token "master-key" [("api_key", "abc")]] := rfl

/-- C6 amended: `get_all_credentials` returns exactly the user's stored
rows (active-only when requested), unmodified — hence including the
ciphertext column though never any decrypted plaintext — ordered
newest-created-first. -/
theorem c6_order_and_membership (db : DB) (u : Int) (ao : Bool) :
    SortedDesc (get_all_credentials db u ao) ∧
    ∀ r : UserCredential,
      r ∈ get_all_credentials db u ao ↔
        r ∈ db.rows ∧ r.user_id = u ∧ (ao = true → r.is_active = true) := by
  refine ⟨sortedDesc_sortDesc _, ?_⟩
  intro r
  simp only [get_all_credentials]
  rw [mem_sortDesc, List.mem_filter]
  cases ao
  · simp
  · simp

/-- C7: decrypting the encryption of any payload under the same key
returns exactly that payload (the schema-acceptance guard of the claim is
carried but not needed). -/
theorem c7_round_trip (cm : CredentialManager) (s : String) (p : Payload)
    (_h : validate_credential_format s p = true) :
    decrypt_credential cm (encrypt_credential cm p) = .ok p := by
  simp [decrypt_credential, encrypt_credential]

/-- C7 at a concrete schema-accepted payload. -/
theorem c7_round_trip_witness :
    validate_credential_format "osha_api" [("api_key", "abc")] = true ∧
    decrypt_credential cm0 (encrypt_credential cm0 [("api_key", "abc")]) =
      .ok [("api_key", "abc")] :=
  ⟨by decide, c7_round_trip cm0 "osha_api" [("api_key", "abc")] (by decide)⟩

/-- C8: a successful decrypting read returns the plaintext and leaves the
table untouched; a read of an unconfigured pair returns `none` with no
write; no code path of the read ever touches `last_used`, which is set
only by `update_last_used` (on the rows of the pair). -/
theorem c8_read_performs_no_write (cm : CredentialManager) (db : DB)
    (now : Nat) (u : Int) (s : String) :
    (∀ r p, activeRowsFor db u s = [r] →
      decrypt_credential cm r.encrypted_credentials = .ok p →
      get_credential_decrypted cm db now u s = (.ok (some p), db)) ∧
    (activeRowsFor db u s = [] →
      get_credential_decrypted cm db now u s = (.ok none, db)) ∧
    (get_credential_decrypted cm db now u s).2.rows.map
      (fun r => r.last_used) = db.rows.map (fun r => r.last_used) ∧
    (update_last_used db now u s).rows.map (fun r => r.last_used) =
      db.rows.map
        (fun r => if matchesPair u s r then some now else r.last_used) := by
  refine ⟨?_, ?_, ?_, ?_⟩
  · intro r p hA hD
    have hg : get_credential db u s = .ok (some r) := by
      simp [get_credential, hA]
    simp [get_credential_decrypted, hg, hD]
  · intro hA
    have hg : get_credential db u s = .ok none := by
      simp [get_credential, hA]
    simp [get_credential_decrypted, hg]
  · cases hg : get_credential db u s with
    | error e => simp [get_credential_decrypted, hg]
    | ok o =>
        cases o with
        | none => simp [get_credential_decrypted, hg]
        | some r =>
            cases hd : decrypt_credential cm r.encrypted_credentials with
            | ok p => simp [get_credential_decrypted, hg, hd]
            | error e =>
                simp only [get_credential_decrypted, hg, hd]
                exact map_map_guard (matchesPair u s)
                  (fun r => { r with is_active := false, updated_at := some now })
                  (fun r => r.last_used) (fun a => rfl) db.rows
  · exact map_map_guard_if (matchesPair u s)
      (fun r => { r with last_used := some now })
      (fun r => r.last_used) db.rows

/-- C8 at a concrete stored credential: the read returns the plaintext and
the table is unchanged. -/
theorem c8_read_performs_no_write_witness :
    get_credential_decrypted cm0 dbOne 9 1 "osha_api" =
      (.ok (some [("api_key", "abc")]), dbOne) :=
  (c8_read_performs_no_write cm0 dbOne 9 1 "osha_api").1 rowActive
    [("api_key", "abc")] (by rfl) (by rfl)

/-- C9: initializing the cipher with no configured key fails with the
configuration error; with a configured (non-empty) key it succeeds, the
held key is exactly the configured one, and encryption uses only that key
(never anything derived from the payload). -/
theorem c9_key_configuration :
    CredentialManager.init none = .error .configurationError ∧
    ∀ k : String, k ≠ "" →
      CredentialManager.init (some k) = .ok ⟨k⟩ ∧
      ∀ p : Payload, encrypt_credential ⟨k⟩ p = .token k p := by
  refine ⟨rfl, ?_⟩
  intro k hk
  refine ⟨?_, fun p => rfl⟩
  simp [CredentialManager.init, hk]

/-- C9 at a concrete configured key. -/
theorem c9_key_configuration_witness :
    CredentialManager.init (some "master-key") = .ok ⟨"master-key"⟩ ∧
    encrypt_credential ⟨"master-key"⟩ [("api_key", "x")] =
      .token "master-key" [("api_key", "x")] := by
  have h := c9_key_configuration.2 "master-key" (by decide)
  exact ⟨h.1, h.2 _⟩

/-- C10: with two or more active rows for one pair, the single-record
lookup raises `MultipleResultsFound` instead of picking one, and both
`add_credential` (past validation) and `get_credential_decrypted`
propagate that error without touching the table. -/
theorem c10_duplicates_raise (db : DB) (u : Int) (s : String)
    (h : 2 ≤ (activeRowsFor db u s).length) :
    get_credential db u s = .error .multipleResultsFound ∧
    (∀ cm now t p, validate_credential_format s p = true →
      add_credential cm db now u s t p = (.error .multipleResultsFound, db)) ∧
    ∀ cm now, get_credential_decrypted cm db now u s =
      (.error .multipleResultsFound, db) := by
  have hg : get_credential db u s = .error .multipleResultsFound := by
    cases hl : activeRowsFor db u s with
    | nil =>
        rw [hl] at h
        simp at h
    | cons a t =>
        cases t with
        | nil =>
            rw [hl] at h
            simp at h
        | cons b t2 => simp [get_credential, hl]
  refine ⟨hg, ?_, ?_⟩
  · intro cm now t p hv
    simp [add_credential, hv, hg]
  · intro cm now
    simp [get_credential_decrypted, hg]

/-- C10 at a concrete table with duplicate active rows for one pair. -/
theorem c10_duplicates_raise_witness :
    2 ≤ (activeRowsFor dbDup 1 "osha_api").length ∧
    get_credential dbDup 1 "osha_api" = .error .multipleResultsFound ∧
    add_credential cm0 dbDup 7 1 "osha_api" "api_key" [("api_key", "x")] =
      (.error .multipleResultsFound, dbDup) := by
  have h := c10_duplicates_raise dbDup 1 "osha_api" (by decide)
  exact ⟨by decide, h.1, h.2.1 cm0 7 "api_key" [("api_key", "x")] (by decide)⟩
